import Mathlib

/-!
Shallow embedding of the `SimpleCache` class from
`service.subtitles.titlovi/resources/lib/simple_cache.py`.

Modelling conventions:
* Wall-clock datetimes are microseconds-since-epoch (`Nat`); the Python
  `int(time.mktime(dt.timetuple()))` conversion truncates a datetime to whole
  seconds, which is `encodeTime` below (integer division by `MICROS`).
* The Kodi window-property map (the process-local tier) and the sqlite table
  (the persistent tier) are association lists keyed by the endpoint string.
  The fixed "simplecache." property prefix is injective string prepending, so
  keys are modelled by the endpoint suffix directly; the two reserved internal
  properties `internal.clean.busy` / `internal.clean.lastexecuted` are kept as
  separate state fields.
* Serialized cell contents are modelled symbolically: `json.dumps` of the
  3-tuple `(expires, data, checksum)` is `MemBlob.jsonTriple`, `repr` of that
  tuple is `MemBlob.reprTriple` (a Python tuple repr starts with a parenthesis
  and is never valid JSON, so `json.loads` on it always fails); in the DB the
  payload column holds `DbBlob.jsonOf` (`json.dumps(data)`) or `DbBlob.reprOf`
  (`repr(data)`).  A Python `repr` parses as JSON exactly when the value is
  built from ints and lists of such values (`reprIsJson`), in which case it
  parses to the same value.
* Fallible host calls are modelled by explicit outcome parameters: a failing
  `setProperty`/SQL write (the source catches the exception and logs) is an
  `Ok`-flag that is `false`; `time.mktime` overflow is an `Option`-valued
  oracle; a sqlite attempt outcome is `SqlOutcome`.
-/

namespace SimpleCache

/-- JSON-serializable payload values: null, booleans, (integer) numbers,
strings, arrays and objects.  `json.dumps`/`json.loads` round-trips these
identically, which the embedding reflects by storing the value itself inside
the serialized blob constructors. -/
inductive JVal : Type where
  | null : JVal
  | bool : Bool → JVal
  | num : Int → JVal
  | str : String → JVal
  | arr : List JVal → JVal
  | obj : List (String × JVal) → JVal

mutual

/-- Whether the Python `repr` of this value happens to be valid JSON text
(ints print as JSON numbers, lists of such values print as JSON arrays;
`None`/`True`/`False`, strings (single quotes) and dicts do not). -/
def reprIsJson : JVal → Bool
  | .num _ => true
  | .arr xs => reprIsJsonList xs
  | _ => false

/-- `reprIsJson` for every element of a list. -/
def reprIsJsonList : List JVal → Bool
  | [] => true
  | x :: xs => reprIsJson x && reprIsJsonList xs

end

/-- Association-list lookup by string key (first match wins, like a sqlite
`SELECT ... WHERE id = ?` on a UNIQUE column / a window-property read). -/
def alookup {α : Type} : List (String × α) → String → Option α
  | [], _ => none
  | (k1, v) :: rest, k => if k1 = k then some v else alookup rest k

/-- Remove every binding of key `k` (sqlite `DELETE WHERE id = ?`, window
`clearProperty`). -/
def adelete {α : Type} (l : List (String × α)) (k : String) : List (String × α) :=
  l.filter (fun kv => kv.1 != k)

/-- Upsert: sqlite `INSERT OR REPLACE`, window `setProperty` (last write
wins). -/
def ainsert {α : Type} (l : List (String × α)) (k : String) (v : α) : List (String × α) :=
  (k, v) :: adelete l k

/-- Sum of the unicode code points of a character list, via Python
`reduce(lambda x, y: x + y, map(ord, s))`: `reduce` with no initializer folds
from the first element, and raises `TypeError` on an empty sequence — which
`_get_checksum` catches and turns into 0. -/
def sumOrds : List Char → Nat
  | [] => 0
  | c :: cs => cs.foldl (fun a ch => a + ch.toNat) c.toNat

/-- Python truthiness of the optional `global_checksum` salt (`None` and the
empty string are falsy). -/
def saltTruthy : Option String → Bool
  | none => false
  | some s => !(s == "")

/-- `SimpleCache._get_checksum`: returns 0 when both the input and the salt
are falsy; otherwise sums the code points of `f"{salt}-{input}"` when the salt
is truthy, else of the input itself. -/
def get_checksum (salt : Option String) (stringinput : String) : Nat :=
  if stringinput == "" && !(saltTruthy salt) then 0
  else
    let calcInput := if saltTruthy salt then salt.getD "" ++ "-" ++ stringinput else stringinput
    if calcInput == "" then 0
    else sumOrds calcInput.data

/-- The checksum formula as the claim words it: the code-point sum of the
plain concatenation of the salt (when present) and the input, with the same
both-falsy-gives-0 case. -/
def checksumClaim (salt : Option String) (stringinput : String) : Nat :=
  if stringinput == "" && !(saltTruthy salt) then 0
  else (((salt.getD "" ++ stringinput).data).map Char.toNat).sum

/-- The checksum formula as amended: with a truthy salt the code sums the
code points of salt ++ "-" ++ input (a `-` separator is inserted); without one
it sums the code points of the input. -/
def checksumAmended (salt : Option String) (stringinput : String) : Nat :=
  if stringinput == "" && !(saltTruthy salt) then 0
  else if saltTruthy salt then (((salt.getD "" ++ "-" ++ stringinput).data).map Char.toNat).sum
  else ((stringinput.data).map Char.toNat).sum

/-- One second, in the microsecond resolution of the datetime model. -/
def MICROS : Nat := 1000000

/-- `SimpleCache._get_timestamp` on an in-range datetime:
`int(time.mktime(dt.timetuple()))` truncates the datetime (microseconds since
epoch) to whole seconds. -/
def encodeTime (t : Nat) : Int := ((t / MICROS : Nat) : Int)

/-- `SimpleCache._get_timestamp`, with the fallible library conversion
abstracted: `mktime` is the `time.mktime(dt.timetuple())` call, returning
`none` when it raises `OverflowError`/`ValueError`/`TypeError` (the exact
exceptions the source catches), and `nowEnc` is the `int(time.time())`
fallback value (the current time's encoding). -/
def get_timestamp {α : Type} (mktime : α → Option Int) (nowEnc : Int) (dt : α) : Int :=
  match mktime dt with
  | some t => t
  | none => nowEnc

/-- The serialized string held in one window property of the process-local
tier.  `_set_mem_cache` stores `json.dumps((expires, data, checksum))` when
`json_data or data_is_json` holds (`jsonTriple`) and `repr((expires, data,
checksum))` otherwise (`reprTriple`).  `json.dumps` of a 3-tuple is always a
3-element JSON array, so the `isinstance(..., (list, tuple)) and len >= 3`
structure check of `_get_mem_cache` always passes on a `jsonTriple`; the
`repr` of a tuple starts with `(` and is never valid JSON. -/
inductive MemBlob : Type where
  | jsonTriple : Int → JVal → Int → MemBlob
  | reprTriple : Int → JVal → Int → MemBlob

/-- The serialized payload text in the `data` column of the sqlite row:
`json.dumps(data)` or `repr(data)`. -/
inductive DbBlob : Type where
  | jsonOf : JVal → DbBlob
  | reprOf : JVal → DbBlob

/-- One row of the `simplecache(id, expires, data, checksum)` table. -/
structure DbRow : Type where
  expires : Int
  data : DbBlob
  checksum : Int

/-- `json.loads` applied to the stored payload text: always succeeds on a
`json.dumps` output (returning the dumped value), and succeeds on a Python
`repr` exactly when the value is built from ints and lists (where the repr is
itself JSON for the same value). -/
def jsonLoadsBlob : DbBlob → Option JVal
  | .jsonOf v => some v
  | .reprOf v => if reprIsJson v then some v else none

/-- The mutable state shared by the two tiers: the window-property map, the
sqlite table, and the two reserved maintenance properties
(`internal.clean.busy`, `internal.clean.lastexecuted`). -/
structure CacheState : Type where
  mem : List (String × MemBlob)
  db : List (String × DbRow)
  busy : Bool
  lastExec : Option Nat

/-- Configuration/instance flags of a `SimpleCache` object: `winPresent` is
`self._win is not None` (and `self._monitor is not None`, which the
constructor makes null together), `enableMem` is `enable_mem_cache`,
`dataIsJson` the class attribute `data_is_json` (constantly `False` in the
repository), `exitFlag` is `self._exit`, `hasDb` is `self._db_path is not
None`, `globalChecksum` the optional salt. -/
structure Config : Type where
  winPresent : Bool
  enableMem : Bool
  dataIsJson : Bool
  exitFlag : Bool
  hasDb : Bool
  globalChecksum : Option String

/-- `SimpleCache._get_mem_cache`: read the window property; an empty/missing
property is a miss; in the JSON branch a `reprTriple` fails `json.loads`, is
cleared and reported as a miss; in the non-JSON branch the method returns
`None` before deserializing ("Non-JSON cache is disabled for safety").  A
parsed triple is returned only if `expires > cur_time` and
(`not checksum or checksum == stored`). -/
def get_mem_cache (cfg : Config) (st : CacheState) (endpoint : String) (cks : Nat)
    (cur : Int) (jsonData : Bool) : Option JVal × CacheState :=
  match alookup st.mem endpoint with
  | none => (none, st)
  | some blob =>
    if jsonData || cfg.dataIsJson then
      match blob with
      | .reprTriple _ _ _ => (none, { st with mem := adelete st.mem endpoint })
      | .jsonTriple e v c =>
        if e > cur then
          if cks = 0 ∨ (cks : Int) = c then (some v, st) else (none, st)
        else (none, st)
    else (none, st)

/-- `SimpleCache._set_mem_cache`: serialize `(expires, data, checksum)` as
JSON or repr and `setProperty` it.  `writeOk = false` models a raising
`setProperty` (the exception is caught and logged, leaving the map
unchanged). -/
def set_mem_cache (cfg : Config) (st : CacheState) (endpoint : String) (cks : Int)
    (expires : Int) (data : JVal) (jsonData : Bool) (writeOk : Bool) : CacheState :=
  if writeOk then
    if jsonData || cfg.dataIsJson then
      { st with mem := ainsert st.mem endpoint (.jsonTriple expires data cks) }
    else
      { st with mem := ainsert st.mem endpoint (.reprTriple expires data cks) }
  else st

/-- `SimpleCache.delete`: clear the window property (when the local tier is
enabled and the window exists) and `DELETE FROM simplecache WHERE id = ?`
(when a DB path is configured); a no-op on a cache whose window is missing. -/
def delete (cfg : Config) (st : CacheState) (endpoint : String) : CacheState :=
  if cfg.winPresent then
    let st1 := if cfg.enableMem then { st with mem := adelete st.mem endpoint } else st
    if cfg.hasDb then { st1 with db := adelete st1.db endpoint } else st1
  else st

/-- `SimpleCache._get_db_cache`: `SELECT expires, data, checksum WHERE id = ?`;
returns `None` when no DB path is configured, when the SQL layer fails
(`sqlOk = false`: `_execute_sql` returned no cursor), when the row is missing
or expired or checksum-mismatched, or in the disabled non-JSON branch.  On a
successful parse the result is promoted into the local tier with the stored
expiry and checksum; when `json.loads` raises, the entry is deleted via
`self.delete` and the read reports a miss. -/
def get_db_cache (cfg : Config) (st : CacheState) (endpoint : String) (cks : Nat)
    (cur : Int) (jsonData : Bool) (sqlOk : Bool) : Option JVal × CacheState :=
  if cfg.hasDb then
    if sqlOk then
      match alookup st.db endpoint with
      | none => (none, st)
      | some row =>
        if row.expires > cur then
          if cks = 0 ∨ (cks : Int) = row.checksum then
            if jsonData || cfg.dataIsJson then
              match jsonLoadsBlob row.data with
              | some v =>
                let st1 := if cfg.enableMem && cfg.winPresent then
                    set_mem_cache cfg st endpoint row.checksum row.expires v jsonData true
                  else st
                (some v, st1)
              | none => (none, delete cfg st endpoint)
            else (none, st)
          else (none, st)
        else (none, st)
    else (none, st)
  else (none, st)

/-- `SimpleCache._set_db_cache`: `INSERT OR REPLACE INTO simplecache` with the
payload serialized as JSON or repr.  `writeOk = false` models a failing
`_execute_sql` (retries exhausted or another DB error — caught and logged). -/
def set_db_cache (cfg : Config) (st : CacheState) (endpoint : String) (cks : Int)
    (expires : Int) (data : JVal) (jsonData : Bool) (writeOk : Bool) : CacheState :=
  if cfg.hasDb then
    if writeOk then
      let blob := if jsonData || cfg.dataIsJson then DbBlob.jsonOf data else DbBlob.reprOf data
      { st with db := ainsert st.db endpoint ⟨expires, blob, cks⟩ }
    else st
  else st

/-- `SimpleCache.get`: returns `None` outright when the window handle is
missing (failed construction); otherwise computes the checksum of the request
and the current second-resolution timestamp, consults the local tier when it
is enabled, and falls back to the persistent tier whenever the local tier
reported a miss or is disabled. -/
def get (cfg : Config) (st : CacheState) (endpoint checksum : String) (curUs : Nat)
    (jsonData : Bool) (sqlOk : Bool) : Option JVal × CacheState :=
  if cfg.winPresent then
    let cks := get_checksum cfg.globalChecksum checksum
    let cur := encodeTime curUs
    let r1 := if cfg.enableMem then get_mem_cache cfg st endpoint cks cur jsonData
      else (none, st)
    match r1.1 with
    | some v => (some v, r1.2)
    | none => get_db_cache cfg r1.2 endpoint cks cur jsonData sqlOk
  else (none, st)

/-- `SimpleCache.set`: returns without writing when the window handle is
missing; otherwise computes the checksum and `expires =
timestamp(now + expiration)` and writes the local tier (when enabled and not
exiting) and the persistent tier (when a DB path is configured and not
exiting); each tier's write swallows its own failures (`memOk`/`dbOk`). -/
def set (cfg : Config) (st : CacheState) (endpoint : String) (data : JVal)
    (checksum : String) (nowUs expirationUs : Nat) (jsonData : Bool)
    (memOk dbOk : Bool) : CacheState :=
  if cfg.winPresent then
    let cks : Int := (get_checksum cfg.globalChecksum checksum : Nat)
    let expires := encodeTime (nowUs + expirationUs)
    let st1 := if cfg.enableMem && !cfg.exitFlag then
        set_mem_cache cfg st endpoint cks expires data jsonData memOk
      else st
    if cfg.hasDb && !cfg.exitFlag then
      set_db_cache cfg st1 endpoint cks expires data jsonData dbOk
    else st1
  else st

/-- Outcome of one `execute`/`executemany` attempt inside `_execute_sql`:
success with a cursor (abstracted to a `Nat` identifier), an
`OperationalError` carrying "database is locked", another `OperationalError`,
or any other exception. -/
inductive SqlOutcome : Type where
  | success : Nat → SqlOutcome
  | locked : SqlOutcome
  | opError : SqlOutcome
  | otherError : SqlOutcome

/-- `max_retries = 10` in `_execute_sql`. -/
def max_retries : Nat := 10

/-- `retry_delay = 0.1` seconds in `_execute_sql`, expressed in
milliseconds: the fixed delay waited between contended attempts. -/
def retry_delay_ms : Nat := 100

/-- The `while retries < max_retries` loop of `_execute_sql`: before each
attempt the abort flags are checked (`None` on abort); a successful attempt
returns its cursor; a "database is locked" `OperationalError` waits
`retry_delay` and retries with `retries` incremented; any other error returns
`None` at once.  `fuel` is `max_retries - retries`, `step` numbers the
attempts. -/
def sqlLoop (attempt : Nat → SqlOutcome) (abortReq : Nat → Bool) :
    Nat → Nat → Option Nat
  | _, 0 => none
  | step, fuel + 1 =>
    if abortReq step then none
    else
      match attempt step with
      | .success r => some r
      | .locked => sqlLoop attempt abortReq (step + 1) fuel
      | .opError => none
      | .otherError => none

/-- `SimpleCache._execute_sql`: `None` without any attempt when the monitor is
gone, no DB path is configured, or `_get_database` failed (`connOk = false`);
otherwise the bounded retry loop starting at `retries = 0`.  Exhausting the
retries falls through the loop and returns `None` (a logged soft failure). -/
def execute_sql (connOk : Bool) (attempt : Nat → SqlOutcome) (abortReq : Nat → Bool) :
    Option Nat :=
  if connOk then sqlLoop attempt abortReq 0 max_retries else none

/-- Number of `execute` attempts the retry loop of `_execute_sql` makes
(instrumentation of `sqlLoop`, same branching). -/
def sqlAttemptCount (attempt : Nat → SqlOutcome) (abortReq : Nat → Bool) :
    Nat → Nat → Nat
  | _, 0 => 0
  | step, fuel + 1 =>
    if abortReq step then 0
    else
      match attempt step with
      | .locked => 1 + sqlAttemptCount attempt abortReq (step + 1) fuel
      | _ => 1

/-- The `(id, expires)` projection fetched by the cleanup's
`SELECT id, expires FROM simplecache`. -/
def expiresOf (kv : String × DbRow) : String × Int := (kv.1, kv.2.expires)

/-- One iteration of the cleanup's row loop on the table: `DELETE FROM
simplecache WHERE id = ?` when the snapshotted `expires` is below the current
timestamp, no effect otherwise. -/
def sweepStep (ts : Int) (acc : List (String × DbRow)) (ke : String × Int) :
    List (String × DbRow) :=
  if ke.2 < ts then adelete acc ke.1 else acc

/-- One iteration of the cleanup's property loop: `clearProperty` for an id
that was found in the table. -/
def clearStep (acc : List (String × MemBlob)) (ke : String × Int) :
    List (String × MemBlob) :=
  adelete acc ke.1

/-- `SimpleCache._do_cleanup`, run to completion without a host abort:
a no-op when the window/monitor is missing, the exit flag is set, or the
busy marker is already set; otherwise it snapshots `(id, expires)` of every
row, deletes from the table each row whose `expires` is below the current
timestamp, clears the window property of every id found in the table, runs
`VACUUM` (no effect on table contents), records the last-executed marker and
finally clears the busy marker. -/
def do_cleanup (cfg : Config) (st : CacheState) (curUs : Nat) : CacheState :=
  if !cfg.winPresent || cfg.exitFlag then st
  else if st.busy then st
  else
    let ts := encodeTime curUs
    let rows := if cfg.hasDb then st.db.map expiresOf else []
    let db1 := rows.foldl (sweepStep ts) st.db
    let mem1 := rows.foldl clearStep st.mem
    { mem := mem1, db := db1, busy := false, lastExec := some curUs }

/-- The healthy default configuration: construction succeeded (window and
monitor present), the local tier passed its self-test, `data_is_json` at its
class default `False`, not exiting, a DB path configured, no global salt. -/
def cfgDefault : Config := ⟨true, true, false, false, true, none⟩

/-- A configuration whose low-level construction failed: `self._win = None`. -/
def cfgNoWin : Config := ⟨false, true, false, false, true, none⟩

/-- The empty cache state. -/
def st0 : CacheState := ⟨[], [], false, none⟩

/-- A concrete two-entry state for exercising the sweep: `"old"` expired at
second 0, `"new"` expires at second 9, both mirrored in the local tier. -/
def stSweep : CacheState :=
  ⟨[("old", MemBlob.jsonTriple 0 (JVal.num 1) 0), ("new", MemBlob.jsonTriple 9 (JVal.num 2) 0)],
   [("old", ⟨0, DbBlob.jsonOf (JVal.num 1), 0⟩), ("new", ⟨9, DbBlob.jsonOf (JVal.num 2), 0⟩)],
   false, none⟩

theorem alookup_adelete_self {α : Type} (l : List (String × α)) (k : String) :
    alookup (adelete l k) k = none := by
  induction l with
  | nil => rfl
  | cons kv rest ih =>
    by_cases h : kv.1 = k
    · simpa [adelete, h] using ih
    · simpa [adelete, alookup, h] using ih

theorem alookup_adelete_ne {α : Type} (l : List (String × α)) {k k1 : String} (h : k ≠ k1) :
    alookup (adelete l k1) k = alookup l k := by
  induction l with
  | nil => rfl
  | cons kv rest ih =>
    by_cases h1 : kv.1 = k1
    · have h2 : ¬ k1 = k := fun hk => h hk.symm
      have hb : (kv.1 != k1) = false := by simp [h1]
      simpa [adelete, alookup, List.filter_cons, hb, h1, h2] using ih
    · have hb : (kv.1 != k1) = true := by simp [h1]
      by_cases h2 : kv.1 = k
      · simp [adelete, alookup, List.filter_cons, hb, h2, h]
      · simpa [adelete, alookup, List.filter_cons, hb, h2] using ih

theorem alookup_adelete_none {α : Type} (l : List (String × α)) (k k1 : String)
    (h : alookup l k = none) : alookup (adelete l k1) k = none := by
  by_cases hk : k = k1
  · subst hk; exact alookup_adelete_self l k
  · rw [alookup_adelete_ne l hk]; exact h

theorem alookup_ainsert_self {α : Type} (l : List (String × α)) (k : String) (v : α) :
    alookup (ainsert l k v) k = some v := by
  simp [ainsert, alookup]

theorem alookup_ainsert_ne {α : Type} (l : List (String × α)) {k k1 : String} (v : α)
    (h : k ≠ k1) : alookup (ainsert l k1 v) k = alookup l k := by
  have h1 : ¬ k1 = k := fun hk => h hk.symm
  simp [ainsert, alookup, h1, alookup_adelete_ne l h]

theorem mem_of_alookup {α : Type} {l : List (String × α)} {k : String} {v : α}
    (h : alookup l k = some v) : (k, v) ∈ l := by
  induction l with
  | nil => simp [alookup] at h
  | cons kv rest ih =>
    obtain ⟨a, b⟩ := kv
    by_cases h1 : a = k
    · subst h1
      simp only [alookup, if_pos] at h
      injection h with hv
      subst hv
      exact List.mem_cons_self _ _
    · simp only [alookup, if_neg h1] at h
      exact List.mem_cons_of_mem _ (ih h)

theorem alookup_of_mem_nodup {α : Type} {l : List (String × α)} {k : String} {v : α}
    (hnd : (l.map Prod.fst).Nodup) (h : (k, v) ∈ l) : alookup l k = some v := by
  induction l with
  | nil => simp at h
  | cons kv rest ih =>
    rcases List.mem_cons.mp h with h1 | h1
    · subst h1
      simp [alookup]
    · have hk : kv.1 ≠ k := by
        intro hk
        have : k ∈ rest.map Prod.fst := List.mem_map.mpr ⟨(k, v), h1, rfl⟩
        rw [List.map_cons, List.nodup_cons] at hnd
        exact hnd.1 (hk ▸ this)
      rw [List.map_cons, List.nodup_cons] at hnd
      simp only [alookup, hk, if_neg, not_false_iff]
      exact ih hnd.2 h1

theorem foldl_add_toNat (cs : List Char) :
    ∀ a : Nat, cs.foldl (fun x ch => x + ch.toNat) a = a + (cs.map Char.toNat).sum := by
  induction cs with
  | nil => intro a; simp
  | cons c cs ih =>
    intro a
    simp only [List.foldl_cons, List.map_cons, List.sum_cons, ih]
    omega

theorem sumOrds_eq_sum (l : List Char) : sumOrds l = (l.map Char.toNat).sum := by
  cases l with
  | nil => rfl
  | cons c cs => simp [sumOrds, foldl_add_toNat]

theorem set_mem_cache_db (cfg : Config) (st : CacheState) (e : String) (c x : Int)
    (d : JVal) (j w : Bool) : (set_mem_cache cfg st e c x d j w).db = st.db := by
  unfold set_mem_cache
  by_cases hw : w = true
  · by_cases hj : (j || cfg.dataIsJson) = true
    · simp [hw, hj]
    · simp [hw, hj]
  · simp [hw]

theorem set_db_cache_mem (cfg : Config) (st : CacheState) (e : String) (c x : Int)
    (d : JVal) (j w : Bool) : (set_db_cache cfg st e c x d j w).mem = st.mem := by
  unfold set_db_cache
  by_cases h1 : cfg.hasDb = true
  · by_cases hw : w = true
    · simp [h1, hw]
    · simp [h1, hw]
  · simp [h1]

theorem append_dash_ne_empty (g s : String) : g ++ "-" ++ s ≠ "" := by
  intro h
  have hd : (g ++ "-" ++ s).data = "".data := congrArg String.data h
  rw [String.data_append, String.data_append] at hd
  have h1 : ("-" : String).data = ['-'] := rfl
  have h2 : ("" : String).data = [] := rfl
  rw [h1, h2] at hd
  simp at hd

/-- C5 (amended form): `_get_checksum` computes the plain code-point sum of
the input when no salt is set, and of `salt ++ "-" ++ input` (with the `-`
separator) when a salt is set, returning 0 when input and salt are both
falsy. -/
theorem C5_checksum_amended (salt : Option String) (input : String) :
    get_checksum salt input = checksumAmended salt input := by
  unfold get_checksum checksumAmended
  by_cases hs : saltTruthy salt = true
  · have hne : (salt.getD "" ++ "-" ++ input == "") = false :=
      beq_eq_false_iff_ne.mpr (append_dash_ne_empty _ _)
    simp [hs, hne, sumOrds_eq_sum]
  · by_cases hi : (input == "") = true
    · simp [hs, hi]
    · simp [hs, hi, sumOrds_eq_sum]

/-- C5 (counterexample to the claim as stated): with salt `"A"` and input
`"B"` the code computes `65 + 45 + 66 = 176` (the `-` adds 45), not the claimed
code-point sum `131` of the plain concatenation `"AB"`. -/
theorem C5_counterexample :
    get_checksum (some "A") "B" ≠ checksumClaim (some "A") "B" := by decide

/-- C6: `_get_timestamp` is total — it returns the successful
`int(time.mktime(...))` conversion when the library call succeeds, and falls
back to the current time's encoding (`int(time.time())`) when the conversion
raises `OverflowError`/`ValueError`/`TypeError` on an out-of-range datetime;
the in-range conversion of the microsecond datetime model is `encodeTime`. -/
theorem C6_timestamp_total {α : Type} (mktime : α → Option Int) (nowEnc : Int) (dt : α) :
    (mktime dt = none → get_timestamp mktime nowEnc dt = nowEnc) ∧
    (∀ t : Int, mktime dt = some t → get_timestamp mktime nowEnc dt = t) ∧
    (∀ u : Nat, get_timestamp (fun x : Nat => some (encodeTime x)) nowEnc u = encodeTime u) := by
  refine ⟨fun h => ?_, fun t h => ?_, fun u => rfl⟩
  · unfold get_timestamp
    rw [h]
  · unfold get_timestamp
    rw [h]

theorem C6_witness :
    get_timestamp (fun _ : Nat => (none : Option Int)) 42 0 = 42 ∧
    get_timestamp (fun x : Nat => some (encodeTime x)) 42 MICROS = 1 := by
  constructor
  · exact (C6_timestamp_total (fun _ : Nat => (none : Option Int)) 42 0).1 rfl
  · exact (C6_timestamp_total (fun x : Nat => some (encodeTime x)) 42 MICROS).2.2 MICROS

theorem sqlLoop_locked (attempt : Nat → SqlOutcome) (abortReq : Nat → Bool)
    (h : ∀ i, attempt i = SqlOutcome.locked) :
    ∀ fuel step, sqlLoop attempt abortReq step fuel = none := by
  intro fuel
  induction fuel with
  | zero => intro step; rfl
  | succ n ih =>
    intro step
    unfold sqlLoop
    by_cases ha : abortReq step = true
    · simp [ha]
    · simp [ha, h step, ih]

theorem sqlAttemptCount_le (attempt : Nat → SqlOutcome) (abortReq : Nat → Bool) :
    ∀ fuel step, sqlAttemptCount attempt abortReq step fuel ≤ fuel := by
  intro fuel
  induction fuel with
  | zero => intro step; exact Nat.le_refl 0
  | succ n ih =>
    intro step
    unfold sqlAttemptCount
    by_cases ha : abortReq step = true
    · simp [ha]
    · cases hatt : attempt step
      all_goals simp only [ha, Bool.false_eq_true, if_false, hatt]
      all_goals try exact Nat.succ_le_succ (Nat.zero_le n)
      have := ih (step + 1)
      omega

/-- C7: the `_execute_sql` retry loop makes at most `max_retries = 10`
attempts (so it always terminates); when every attempt hits the
"database is locked" contention it exhausts the retries and abandons the
operation, returning `None` without raising; a non-contention
`OperationalError` or any other exception abandons the operation at once,
also returning `None`. -/
theorem C7_retry_bounded (attempt : Nat → SqlOutcome) (abortReq : Nat → Bool)
    (connOk : Bool) :
    (sqlAttemptCount attempt abortReq 0 max_retries ≤ max_retries) ∧
    ((∀ i, attempt i = SqlOutcome.locked) →
      execute_sql connOk attempt abortReq = none) ∧
    (abortReq 0 = false → attempt 0 = SqlOutcome.opError →
      execute_sql connOk attempt abortReq = none) ∧
    (abortReq 0 = false → attempt 0 = SqlOutcome.otherError →
      execute_sql connOk attempt abortReq = none) := by
  refine ⟨sqlAttemptCount_le attempt abortReq max_retries 0, fun h => ?_, fun ha h => ?_, fun ha h => ?_⟩
  · unfold execute_sql
    by_cases hc : connOk = true
    · simp [hc, sqlLoop_locked attempt abortReq h]
    · simp [hc]
  · unfold execute_sql
    by_cases hc : connOk = true
    · simp [hc, max_retries, sqlLoop, ha, h]
    · simp [hc]
  · unfold execute_sql
    by_cases hc : connOk = true
    · simp [hc, max_retries, sqlLoop, ha, h]
    · simp [hc]

theorem C7_witness :
    sqlAttemptCount (fun _ => SqlOutcome.locked) (fun _ => false) 0 max_retries ≤ max_retries ∧
    execute_sql true (fun _ => SqlOutcome.locked) (fun _ => false) = none ∧
    execute_sql true (fun _ => SqlOutcome.opError) (fun _ => false) = none := by
  refine ⟨(C7_retry_bounded (fun _ => SqlOutcome.locked) (fun _ => false) true).1,
    (C7_retry_bounded (fun _ => SqlOutcome.locked) (fun _ => false) true).2.1 (fun i => rfl),
    (C7_retry_bounded (fun _ => SqlOutcome.opError) (fun _ => false) true).2.2.1 rfl rfl⟩

theorem encodeTime_lt_add {t d : Nat} (hd : MICROS ≤ d) :
    encodeTime t < encodeTime (t + d) := by
  unfold encodeTime
  have h1 : t / MICROS + 1 ≤ (t + d) / MICROS := by
    have h2 : t + MICROS ≤ t + d := Nat.add_le_add_left hd t
    have h3 : (t + MICROS) / MICROS = t / MICROS + 1 :=
      Nat.add_div_right t (by unfold MICROS; omega)
    have h4 : (t + MICROS) / MICROS ≤ (t + d) / MICROS := Nat.div_le_div_right h2
    omega
  exact_mod_cast Nat.lt_of_lt_of_le (Nat.lt_succ_self _) h1

theorem set_mem_lookup (cfg : Config) (st : CacheState) (k cs : String) (v : JVal)
    (t d : Nat) (dbOk : Bool) (hwin : cfg.winPresent = true) (hexit : cfg.exitFlag = false)
    (hmem : cfg.enableMem = true) :
    alookup (set cfg st k v cs t d true true dbOk).mem k =
      some (MemBlob.jsonTriple (encodeTime (t + d)) v
        ((get_checksum cfg.globalChecksum cs : Nat) : Int)) := by
  unfold set set_mem_cache
  by_cases hdb : cfg.hasDb = true
  · simp [hwin, hexit, hmem, hdb, set_db_cache_mem, alookup_ainsert_self]
  · simp [hwin, hexit, hmem, hdb, alookup_ainsert_self]

/-- C1 (counterexample to the claim as stated): a strictly positive
sub-second expiration (here one microsecond) is truncated away by the
second-resolution timestamp codec, so the immediately following `get` finds
`expires > cur_time` false and reports a miss in both tiers instead of
returning the stored value. -/
theorem C1_counterexample :
    (get cfgDefault (set cfgDefault st0 "k" JVal.null "" 0 1 true true true)
      "k" "" 0 true true).1 = none := rfl

/-- C1 (amended form): for every expiration of at least one second, on an
initialized cache (window present, not exiting) whose local tier is enabled
and writable, `get(k)` immediately after `set(k, v, expiration)` returns the
stored value `v`. -/
theorem C1_set_get_roundtrip (cfg : Config) (st : CacheState) (k : String) (v : JVal)
    (t d : Nat) (hwin : cfg.winPresent = true) (hexit : cfg.exitFlag = false)
    (hmem : cfg.enableMem = true) (hd : MICROS ≤ d) :
    (get cfg (set cfg st k v "" t d true true true) k "" t true true).1 = some v := by
  have hlook := set_mem_lookup cfg st k "" v t d true hwin hexit hmem
  have hlt : encodeTime t < encodeTime (t + d) := encodeTime_lt_add hd
  unfold get
  simp only [hwin, hmem, if_true]
  unfold get_mem_cache
  rw [hlook]
  simp [hlt]

theorem C1_witness :
    (get cfgDefault (set cfgDefault st0 "k" (JVal.str "x") "" 0 MICROS true true true)
      "k" "" 0 true true).1 = some (JVal.str "x") :=
  C1_set_get_roundtrip cfgDefault st0 "k" (JVal.str "x") 0 MICROS rfl rfl rfl
    (Nat.le_refl MICROS)

theorem set_db_lookup (cfg : Config) (st : CacheState) (k cs : String) (v : JVal)
    (t d : Nat) (memOk : Bool) (hwin : cfg.winPresent = true)
    (hexit : cfg.exitFlag = false) (hdb : cfg.hasDb = true) :
    alookup (set cfg st k v cs t d true memOk true).db k =
      some ⟨encodeTime (t + d), DbBlob.jsonOf v,
        ((get_checksum cfg.globalChecksum cs : Nat) : Int)⟩ := by
  unfold set set_db_cache
  by_cases hm : (cfg.enableMem && !cfg.exitFlag) = true
  · simp [hwin, hexit, hdb, hm, set_mem_cache_db, alookup_ainsert_self]
  · simp [hwin, hexit, hdb, hm, alookup_ainsert_self]

/-- C2: an entry is returned by a cache read only if its stored `expires` is
strictly greater than the read-time timestamp AND (the computed request
checksum is 0, i.e. no checksum requested, OR it equals the stored checksum);
the identical gate governs `_get_mem_cache` and `_get_db_cache`.  In
particular `set(k, v, checksum="A")` followed by `get(k, checksum="B")`
returns absent (65 vs 66), while `get(k, checksum="A")` (unexpired) returns
`v`. -/
theorem C2_validity_gate :
    (∀ (cfg : Config) (st : CacheState) (k : String) (cks : Nat) (cur : Int)
      (jd : Bool) (r : JVal),
      (get_mem_cache cfg st k cks cur jd).1 = some r →
      ∃ e c, alookup st.mem k = some (MemBlob.jsonTriple e r c) ∧ e > cur ∧
        (cks = 0 ∨ (cks : Int) = c)) ∧
    (∀ (cfg : Config) (st : CacheState) (k : String) (cks : Nat) (cur : Int)
      (jd sqlOk : Bool) (r : JVal),
      (get_db_cache cfg st k cks cur jd sqlOk).1 = some r →
      ∃ row : DbRow, alookup st.db k = some row ∧ row.expires > cur ∧
        (cks = 0 ∨ (cks : Int) = row.checksum) ∧ jsonLoadsBlob row.data = some r) ∧
    (∀ (st : CacheState) (k : String) (v : JVal) (t d t1 : Nat) (sqlOk : Bool),
      (get cfgDefault (set cfgDefault st k v "A" t d true true true)
        k "B" t1 true sqlOk).1 = none) ∧
    (∀ (st : CacheState) (k : String) (v : JVal) (t d t1 : Nat) (sqlOk : Bool),
      encodeTime t1 < encodeTime (t + d) →
      (get cfgDefault (set cfgDefault st k v "A" t d true true true)
        k "A" t1 true sqlOk).1 = some v) := by
  refine ⟨?_, ?_, ?_, ?_⟩
  · intro cfg st k cks cur jd r h
    unfold get_mem_cache at h
    rcases hl : alookup st.mem k with _ | blob
    · rw [hl] at h; simp at h
    · rw [hl] at h
      dsimp only at h
      by_cases hj : (jd || cfg.dataIsJson) = true
      · rw [if_pos hj] at h
        cases blob with
        | reprTriple e v c => simp at h
        | jsonTriple e v c =>
          dsimp only at h
          by_cases he : e > cur
          · rw [if_pos he] at h
            by_cases hc : cks = 0 ∨ (cks : Int) = c
            · rw [if_pos hc] at h
              dsimp only at h
              injection h with hvr
              subst hvr
              exact ⟨e, c, rfl, he, hc⟩
            · rw [if_neg hc] at h; simp at h
          · rw [if_neg he] at h; simp at h
      · rw [if_neg hj] at h; simp at h
  · intro cfg st k cks cur jd sqlOk r h
    unfold get_db_cache at h
    by_cases h1 : cfg.hasDb = true
    · rw [if_pos h1] at h
      by_cases h2 : sqlOk = true
      · rw [if_pos h2] at h
        rcases hl : alookup st.db k with _ | row
        · rw [hl] at h; simp at h
        · rw [hl] at h
          dsimp only at h
          by_cases he : row.expires > cur
          · rw [if_pos he] at h
            by_cases hc : cks = 0 ∨ (cks : Int) = row.checksum
            · rw [if_pos hc] at h
              by_cases hj : (jd || cfg.dataIsJson) = true
              · rw [if_pos hj] at h
                rcases hp : jsonLoadsBlob row.data with _ | v
                · rw [hp] at h; simp at h
                · rw [hp] at h
                  dsimp only at h
                  injection h with hvr
                  subst hvr
                  exact ⟨row, rfl, he, hc, hp⟩
              · rw [if_neg hj] at h; simp at h
            · rw [if_neg hc] at h; simp at h
          · rw [if_neg he] at h; simp at h
      · rw [if_neg h2] at h; simp at h
    · rw [if_neg h1] at h; simp at h
  · intro st k v t d t1 sqlOk
    have hmem : alookup (set cfgDefault st k v "A" t d true true true).mem k =
        some (MemBlob.jsonTriple (encodeTime (t + d)) v
          ((get_checksum (none : Option String) "A" : Nat) : Int)) :=
      set_mem_lookup cfgDefault st k "A" v t d true rfl rfl rfl
    have hdb : alookup (set cfgDefault st k v "A" t d true true true).db k =
        some ⟨encodeTime (t + d), DbBlob.jsonOf v,
          ((get_checksum (none : Option String) "A" : Nat) : Int)⟩ :=
      set_db_lookup cfgDefault st k "A" v t d true rfl rfl rfl
    have hc : ¬(get_checksum (none : Option String) "B" = 0 ∨
        ((get_checksum (none : Option String) "B" : Nat) : Int) =
        ((get_checksum (none : Option String) "A" : Nat) : Int)) := by decide
    have hgm : get_mem_cache cfgDefault (set cfgDefault st k v "A" t d true true true) k
        (get_checksum (none : Option String) "B") (encodeTime t1) true =
        (none, set cfgDefault st k v "A" t d true true true) := by
      unfold get_mem_cache
      rw [hmem]
      dsimp only
      rw [if_pos (show (true || cfgDefault.dataIsJson) = true from rfl)]
      by_cases he : encodeTime (t + d) > encodeTime t1
      · rw [if_pos he, if_neg hc]
      · rw [if_neg he]
    have hgd : (get_db_cache cfgDefault (set cfgDefault st k v "A" t d true true true) k
        (get_checksum (none : Option String) "B") (encodeTime t1) true sqlOk).1 = none := by
      unfold get_db_cache
      rw [if_pos (show cfgDefault.hasDb = true from rfl)]
      by_cases hs : sqlOk = true
      · rw [if_pos hs, hdb]
        dsimp only
        by_cases he : encodeTime (t + d) > encodeTime t1
        · rw [if_pos he, if_neg hc]
        · rw [if_neg he]
      · rw [if_neg hs]
    unfold get
    rw [if_pos (show cfgDefault.winPresent = true from rfl)]
    dsimp only
    rw [show cfgDefault.globalChecksum = (none : Option String) from rfl]
    rw [if_pos (show cfgDefault.enableMem = true from rfl), hgm]
    exact hgd
  · intro st k v t d t1 sqlOk hlt
    have hmem : alookup (set cfgDefault st k v "A" t d true true true).mem k =
        some (MemBlob.jsonTriple (encodeTime (t + d)) v
          ((get_checksum (none : Option String) "A" : Nat) : Int)) :=
      set_mem_lookup cfgDefault st k "A" v t d true rfl rfl rfl
    unfold get
    rw [if_pos (show cfgDefault.winPresent = true from rfl)]
    dsimp only
    rw [show cfgDefault.globalChecksum = (none : Option String) from rfl]
    rw [if_pos (show cfgDefault.enableMem = true from rfl)]
    unfold get_mem_cache
    rw [hmem]
    dsimp only
    rw [if_pos (show (true || cfgDefault.dataIsJson) = true from rfl)]
    rw [if_pos (show encodeTime (t + d) > encodeTime t1 from hlt),
      if_pos (Or.inr rfl : get_checksum (none : Option String) "A" = 0 ∨
        ((get_checksum (none : Option String) "A" : Nat) : Int) =
        ((get_checksum (none : Option String) "A" : Nat) : Int))]

theorem C2_witness :
    (get cfgDefault (set cfgDefault st0 "k" (JVal.num 5) "A" 0 MICROS true true true)
      "k" "B" 0 true true).1 = none ∧
    (get cfgDefault (set cfgDefault st0 "k" (JVal.num 5) "A" 0 MICROS true true true)
      "k" "A" 0 true true).1 = some (JVal.num 5) :=
  ⟨C2_validity_gate.2.2.1 st0 "k" (JVal.num 5) 0 MICROS 0 true,
   C2_validity_gate.2.2.2 st0 "k" (JVal.num 5) 0 MICROS 0 true (by decide)⟩

/-- C3 (counterexample to the claim as stated): on a cache whose low-level
construction failed (`self._win is None`), `get` returns `None` at the top
guard without consulting either tier, although the persistent tier holds a
valid entry that `_get_db_cache` would return — so absent is returned even
though not both tiers miss. -/
theorem C3_counterexample :
    (get cfgNoWin ⟨[], [("k", ⟨100, DbBlob.jsonOf (JVal.num 7), 0⟩)], false, none⟩
      "k" "" 0 true true).1 = none ∧
    (get_db_cache cfgNoWin ⟨[], [("k", ⟨100, DbBlob.jsonOf (JVal.num 7), 0⟩)], false, none⟩
      "k" 0 0 true true).1 = some (JVal.num 7) :=
  ⟨rfl, rfl⟩

/-- C3 (amended form): on an initialized cache (window handle present),
`get` consults the process-local tier first (returning its hit without
touching the persistent tier), falls through to the persistent tier whenever
the local tier missed or is disabled, and returns absent only when both the
local consultation and the persistent lookup produced no value. -/
theorem C3_get_order (cfg : Config) (st : CacheState) (k cs : String) (t : Nat)
    (jd sqlOk : Bool) (hwin : cfg.winPresent = true)
    (m : Option JVal × CacheState)
    (hm : m = if cfg.enableMem then
        get_mem_cache cfg st k (get_checksum cfg.globalChecksum cs) (encodeTime t) jd
      else (none, st)) :
    (∀ v, m.1 = some v → get cfg st k cs t jd sqlOk = (some v, m.2)) ∧
    (m.1 = none → get cfg st k cs t jd sqlOk =
      get_db_cache cfg m.2 k (get_checksum cfg.globalChecksum cs) (encodeTime t) jd sqlOk) ∧
    ((get cfg st k cs t jd sqlOk).1 = none → m.1 = none ∧
      (get_db_cache cfg m.2 k (get_checksum cfg.globalChecksum cs)
        (encodeTime t) jd sqlOk).1 = none) := by
  have hbody : get cfg st k cs t jd sqlOk = (match m.1 with
      | some v => (some v, m.2)
      | none => get_db_cache cfg m.2 k (get_checksum cfg.globalChecksum cs)
          (encodeTime t) jd sqlOk) := by
    unfold get
    rw [if_pos hwin]
    dsimp only
    rw [← hm]
  refine ⟨fun v hv => ?_, fun hv => ?_, fun hg => ?_⟩
  · rw [hbody, hv]
  · rw [hbody, hv]
  · rcases hres : m.1 with _ | v
    · refine ⟨rfl, ?_⟩
      rw [hbody, hres] at hg
      exact hg
    · rw [hbody, hres] at hg
      simp at hg

theorem C3_witness :
    get cfgDefault st0 "k" "" 0 true true = get_db_cache cfgDefault st0 "k" 0 0 true true := by
  have h := C3_get_order cfgDefault st0 "k" "" 0 true true rfl (none, st0) (by rfl)
  exact h.2.1 rfl

/-- C4 (counterexample to the claim as stated): when the cache's low-level
construction failed (`self._win is None`), `set` returns at its top guard
without writing the persistent tier even though a DB path is configured and
the persistent write itself would succeed — so the persistent write is not
unconditional: it depends on the availability of the window object, the
process-local tier's backing mechanism. -/
theorem C4_counterexample :
    set cfgNoWin st0 "k" (JVal.num 1) "" 0 MICROS true true true = st0 ∧
    alookup (set cfgNoWin st0 "k" (JVal.num 1) "" 0 MICROS true true true).db "k" = none :=
  ⟨rfl, rfl⟩

/-- C4 (amended form): on an initialized cache that is not closing (window
handle present, exit flag unset), the persistent write of `set` happens
whenever a DB path is configured and the SQL layer succeeds, independently of
the local tier's enabled flag, its contents, and whether the local-tier write
failed; symmetrically the local-tier write happens whenever the local tier is
enabled and its `setProperty` succeeds, independently of the persistent
tier's configuration and write outcome. -/
theorem C4_independent_writes (cfg : Config) (st : CacheState) (k cs : String)
    (v : JVal) (t d : Nat) (jd memOk dbOk : Bool)
    (hwin : cfg.winPresent = true) (hexit : cfg.exitFlag = false) :
    (cfg.hasDb = true → dbOk = true →
      (set cfg st k v cs t d jd memOk dbOk).db =
        ainsert st.db k ⟨encodeTime (t + d),
          (if jd || cfg.dataIsJson then DbBlob.jsonOf v else DbBlob.reprOf v),
          ((get_checksum cfg.globalChecksum cs : Nat) : Int)⟩) ∧
    (cfg.enableMem = true → memOk = true →
      (set cfg st k v cs t d jd memOk dbOk).mem =
        ainsert st.mem k (if jd || cfg.dataIsJson then
          MemBlob.jsonTriple (encodeTime (t + d)) v
            ((get_checksum cfg.globalChecksum cs : Nat) : Int)
        else
          MemBlob.reprTriple (encodeTime (t + d)) v
            ((get_checksum cfg.globalChecksum cs : Nat) : Int))) := by
  constructor
  · intro hdb hok
    subst hok
    unfold set set_db_cache
    have hdbm : ∀ s : CacheState, (if cfg.enableMem = true then
        set_mem_cache cfg s k ((get_checksum cfg.globalChecksum cs : Nat) : Int)
          (encodeTime (t + d)) v jd memOk else s).db = s.db := by
      intro s
      by_cases hm2 : cfg.enableMem = true
      · simp [hm2, set_mem_cache_db]
      · simp [hm2]
    by_cases hj : (jd || cfg.dataIsJson) = true
    · simp [hwin, hexit, hdb, hj, hdbm]
    · simp [hwin, hexit, hdb, hj, hdbm]
  · intro hmem hok
    subst hok
    unfold set set_mem_cache
    have hmemd : ∀ s : CacheState, (if cfg.hasDb = true then
        set_db_cache cfg s k ((get_checksum cfg.globalChecksum cs : Nat) : Int)
          (encodeTime (t + d)) v jd dbOk else s).mem = s.mem := by
      intro s
      by_cases hd2 : cfg.hasDb = true
      · simp [hd2, set_db_cache_mem]
      · simp [hd2]
    by_cases hj : (jd || cfg.dataIsJson) = true
    · simp [hwin, hexit, hmem, hj, hmemd]
    · simp [hwin, hexit, hmem, hj, hmemd]

theorem C4_witness :
    alookup (set cfgDefault st0 "k" (JVal.num 2) "" 0 MICROS true false true).db "k" =
      some ⟨1, DbBlob.jsonOf (JVal.num 2), 0⟩ := by
  have h := (C4_independent_writes cfgDefault st0 "k" "" (JVal.num 2) 0 MICROS
    true false true rfl rfl).1 rfl rfl
  rw [h]
  rfl

/-- C8: in `_get_db_cache` a checksum mismatch (a nonzero requested checksum
different from the stored one) returns absent and leaves the whole cache
state — the persistent row and any local-tier mirror — unchanged; and the
persistent table is mutated by a read only in the deserialization-failure
branch: if a `_get_db_cache` call changed the table, the looked-up row was
present, unexpired, checksum-valid, and its payload failed `json.loads`. -/
theorem C8_mismatch_no_delete :
    (∀ (cfg : Config) (st : CacheState) (k : String) (cks : Nat) (cur : Int)
      (jd sqlOk : Bool) (row : DbRow),
      alookup st.db k = some row → cks ≠ 0 → (cks : Int) ≠ row.checksum →
      get_db_cache cfg st k cks cur jd sqlOk = (none, st)) ∧
    (∀ (cfg : Config) (st : CacheState) (k : String) (cks : Nat) (cur : Int)
      (jd sqlOk : Bool),
      (get_db_cache cfg st k cks cur jd sqlOk).2.db ≠ st.db →
      ∃ row : DbRow, alookup st.db k = some row ∧ row.expires > cur ∧
        (cks = 0 ∨ (cks : Int) = row.checksum) ∧ jsonLoadsBlob row.data = none) := by
  constructor
  · intro cfg st k cks cur jd sqlOk row hl h0 hne
    have hc : ¬(cks = 0 ∨ (cks : Int) = row.checksum) := by
      rintro (h | h)
      · exact h0 h
      · exact hne h
    unfold get_db_cache
    by_cases h1 : cfg.hasDb = true
    · rw [if_pos h1]
      by_cases h2 : sqlOk = true
      · rw [if_pos h2, hl]
        dsimp only
        by_cases he : row.expires > cur
        · rw [if_pos he, if_neg hc]
        · rw [if_neg he]
      · rw [if_neg h2]
    · rw [if_neg h1]
  · intro cfg st k cks cur jd sqlOk hne
    unfold get_db_cache at hne
    by_cases h1 : cfg.hasDb = true
    · rw [if_pos h1] at hne
      by_cases h2 : sqlOk = true
      · rw [if_pos h2] at hne
        rcases hl : alookup st.db k with _ | row
        · rw [hl] at hne; simp at hne
        · rw [hl] at hne
          dsimp only at hne
          by_cases he : row.expires > cur
          · rw [if_pos he] at hne
            by_cases hc : cks = 0 ∨ (cks : Int) = row.checksum
            · rw [if_pos hc] at hne
              by_cases hj : (jd || cfg.dataIsJson) = true
              · rw [if_pos hj] at hne
                rcases hp : jsonLoadsBlob row.data with _ | v
                · exact ⟨row, rfl, he, hc, hp⟩
                · rw [hp] at hne
                  dsimp only at hne
                  by_cases hpm : (cfg.enableMem && cfg.winPresent) = true
                  · rw [if_pos hpm] at hne
                    rw [set_mem_cache_db] at hne
                    exact absurd rfl hne
                  · rw [if_neg hpm] at hne
                    exact absurd rfl hne
              · rw [if_neg hj] at hne
                exact absurd rfl hne
            · rw [if_neg hc] at hne
              exact absurd rfl hne
          · rw [if_neg he] at hne
            exact absurd rfl hne
      · rw [if_neg h2] at hne
        exact absurd rfl hne
    · rw [if_neg h1] at hne
      exact absurd rfl hne

theorem C8_witness :
    get_db_cache cfgDefault ⟨[], [("k", ⟨100, DbBlob.jsonOf JVal.null, 65⟩)], false, none⟩
      "k" 66 0 true true =
      (none, ⟨[], [("k", ⟨100, DbBlob.jsonOf JVal.null, 65⟩)], false, none⟩) :=
  C8_mismatch_no_delete.1 cfgDefault
    ⟨[], [("k", ⟨100, DbBlob.jsonOf JVal.null, 65⟩)], false, none⟩
    "k" 66 0 true true ⟨100, DbBlob.jsonOf JVal.null, 65⟩ rfl (by decide) (by decide)

/-- C10: with `data_is_json` at its constant repository value `False`, every
`get` call with `json_data=False` returns absent — the non-JSON
deserialization branch is disabled in both `_get_mem_cache` and
`_get_db_cache` — for every key, request checksum, read time and prior cache
state; yet `set` with `json_data=False` still stores a repr-serialized entry
in both tiers (on a healthy cache); hence a `set`-then-`get` round trip in
non-JSON mode never succeeds. -/
theorem C10_nonjson_disabled :
    (∀ (cfg : Config) (st : CacheState) (k cs : String) (t : Nat) (sqlOk : Bool),
      cfg.dataIsJson = false → (get cfg st k cs t false sqlOk).1 = none) ∧
    (∀ (cfg : Config) (st : CacheState) (k cs : String) (v : JVal) (t d : Nat),
      cfg.dataIsJson = false → cfg.winPresent = true → cfg.exitFlag = false →
      cfg.enableMem = true → cfg.hasDb = true →
      alookup (set cfg st k v cs t d false true true).mem k =
        some (MemBlob.reprTriple (encodeTime (t + d)) v
          ((get_checksum cfg.globalChecksum cs : Nat) : Int)) ∧
      alookup (set cfg st k v cs t d false true true).db k =
        some ⟨encodeTime (t + d), DbBlob.reprOf v,
          ((get_checksum cfg.globalChecksum cs : Nat) : Int)⟩) ∧
    (∀ (cfg : Config) (st : CacheState) (k cs cs1 : String) (v : JVal) (t d t1 : Nat)
      (memOk dbOk sqlOk : Bool),
      cfg.dataIsJson = false →
      (get cfg (set cfg st k v cs t d false memOk dbOk) k cs1 t1 false sqlOk).1 = none) := by
  have hmm : ∀ (cfg : Config) (st : CacheState) (k : String) (cks : Nat) (cur : Int),
      cfg.dataIsJson = false → get_mem_cache cfg st k cks cur false = (none, st) := by
    intro cfg st k cks cur hdij
    unfold get_mem_cache
    rcases hl : alookup st.mem k with _ | blob
    · rfl
    · dsimp only
      rw [if_neg]
      simp [hdij]
  have hdd : ∀ (cfg : Config) (st : CacheState) (k : String) (cks : Nat) (cur : Int)
      (sqlOk : Bool),
      cfg.dataIsJson = false → get_db_cache cfg st k cks cur false sqlOk = (none, st) := by
    intro cfg st k cks cur sqlOk hdij
    unfold get_db_cache
    by_cases h1 : cfg.hasDb = true
    · rw [if_pos h1]
      by_cases h2 : sqlOk = true
      · rw [if_pos h2]
        rcases hl : alookup st.db k with _ | row
        · rfl
        · dsimp only
          by_cases he : row.expires > cur
          · rw [if_pos he]
            by_cases hc : cks = 0 ∨ (cks : Int) = row.checksum
            · rw [if_pos hc, if_neg]
              simp [hdij]
            · rw [if_neg hc]
          · rw [if_neg he]
      · rw [if_neg h2]
    · rw [if_neg h1]
  have hget : ∀ (cfg : Config) (st : CacheState) (k cs : String) (t : Nat) (sqlOk : Bool),
      cfg.dataIsJson = false → (get cfg st k cs t false sqlOk).1 = none := by
    intro cfg st k cs t sqlOk hdij
    unfold get
    by_cases hw : cfg.winPresent = true
    · rw [if_pos hw]
      dsimp only
      by_cases hm : cfg.enableMem = true
      · rw [if_pos hm, hmm cfg st k _ _ hdij]
        dsimp only
        rw [hdd cfg st k _ _ sqlOk hdij]
      · rw [if_neg hm]
        dsimp only
        rw [hdd cfg st k _ _ sqlOk hdij]
    · rw [if_neg hw]
  refine ⟨hget, ?_, ?_⟩
  · intro cfg st k cs v t d hdij hwin hexit hmem hdb
    constructor
    · unfold set set_mem_cache
      simp [hwin, hexit, hmem, hdij, set_db_cache_mem, alookup_ainsert_self, hdb]
    · unfold set set_db_cache
      simp [hwin, hexit, hmem, hdij, set_mem_cache_db, alookup_ainsert_self, hdb]
  · intro cfg st k cs cs1 v t d t1 memOk dbOk sqlOk hdij
    exact hget cfg _ k cs1 t1 sqlOk hdij

theorem C10_witness :
    (get cfgDefault (set cfgDefault st0 "k" (JVal.num 3) "" 0 MICROS false true true)
      "k" "" 0 false true).1 = none :=
  C10_nonjson_disabled.2.2 cfgDefault st0 "k" "" "" (JVal.num 3) 0 MICROS 0
    true true true rfl

theorem foldl_sweepStep_none (ts : Int) (rows : List (String × Int)) :
    ∀ (acc : List (String × DbRow)) (k : String), alookup acc k = none →
      alookup (rows.foldl (sweepStep ts) acc) k = none := by
  induction rows with
  | nil => intro acc k h; exact h
  | cons ke rs ih =>
    intro acc k h
    rw [List.foldl_cons]
    apply ih
    unfold sweepStep
    by_cases hlt : ke.2 < ts
    · rw [if_pos hlt]
      exact alookup_adelete_none acc k ke.1 h
    · rw [if_neg hlt]
      exact h

theorem foldl_sweepStep_expired (ts : Int) (rows : List (String × Int)) :
    ∀ (acc : List (String × DbRow)) (k : String) (e : Int), (k, e) ∈ rows → e < ts →
      alookup (rows.foldl (sweepStep ts) acc) k = none := by
  induction rows with
  | nil => intro acc k e h; simp at h
  | cons ke rs ih =>
    intro acc k e hmem hlt
    rw [List.foldl_cons]
    rcases List.mem_cons.mp hmem with h1 | h1
    · apply foldl_sweepStep_none
      unfold sweepStep
      rw [← h1]
      rw [if_pos hlt]
      exact alookup_adelete_self acc k
    · exact ih _ k e h1 hlt

theorem foldl_sweepStep_keep (ts : Int) (rows : List (String × Int)) :
    ∀ (acc : List (String × DbRow)) (k : String),
      (∀ e, (k, e) ∈ rows → ¬ e < ts) →
      alookup (rows.foldl (sweepStep ts) acc) k = alookup acc k := by
  induction rows with
  | nil => intro acc k h; rfl
  | cons ke rs ih =>
    intro acc k h
    rw [List.foldl_cons]
    have hrest : ∀ e, (k, e) ∈ rs → ¬ e < ts := fun e he => h e (List.mem_cons_of_mem _ he)
    rw [ih _ k hrest]
    unfold sweepStep
    by_cases hlt : ke.2 < ts
    · rw [if_pos hlt]
      have hne : k ≠ ke.1 := by
        intro hk
        refine h ke.2 ?_ hlt
        rw [hk, Prod.mk.eta]
        exact List.mem_cons_self _ _
      exact alookup_adelete_ne acc hne
    · rw [if_neg hlt]

theorem foldl_clearStep_none (rows : List (String × Int)) :
    ∀ (acc : List (String × MemBlob)) (k : String), alookup acc k = none →
      alookup (rows.foldl clearStep acc) k = none := by
  induction rows with
  | nil => intro acc k h; exact h
  | cons ke rs ih =>
    intro acc k h
    rw [List.foldl_cons]
    exact ih _ k (alookup_adelete_none acc k ke.1 h)

theorem foldl_clearStep_mem (rows : List (String × Int)) :
    ∀ (acc : List (String × MemBlob)) (k : String) (e : Int), (k, e) ∈ rows →
      alookup (rows.foldl clearStep acc) k = none := by
  induction rows with
  | nil => intro acc k e h; simp at h
  | cons ke rs ih =>
    intro acc k e hmem
    rw [List.foldl_cons]
    rcases List.mem_cons.mp hmem with h1 | h1
    · apply foldl_clearStep_none
      unfold clearStep
      rw [← h1]
      exact alookup_adelete_self acc k
    · exact ih _ k e h1

theorem alookup_unique {α : Type} {l : List (String × α)} (hnd : (l.map Prod.fst).Nodup)
    {k : String} {a b : α} (ha : (k, a) ∈ l) (hb : (k, b) ∈ l) : a = b := by
  induction l with
  | nil => simp at ha
  | cons kv rest ih =>
    rw [List.map_cons, List.nodup_cons] at hnd
    rcases List.mem_cons.mp ha with h1 | h1 <;> rcases List.mem_cons.mp hb with h2 | h2
    · have h3 : (k, a) = (k, b) := h1.trans h2.symm
      injection h3 with _ h4
    · exfalso
      apply hnd.1
      rw [← h1]
      exact List.mem_map.mpr ⟨(k, b), h2, rfl⟩
    · exfalso
      apply hnd.1
      rw [← h2]
      exact List.mem_map.mpr ⟨(k, a), h1, rfl⟩
    · exact ih hnd.2 h1 h2

theorem snapshot_expires (st : CacheState) {k : String} {row : DbRow}
    (hl : alookup st.db k = some row) : (k, row.expires) ∈ st.db.map expiresOf :=
  List.mem_map.mpr ⟨(k, row), mem_of_alookup hl, rfl⟩

theorem snapshot_unique (st : CacheState) (hnd : (st.db.map Prod.fst).Nodup)
    {k : String} {row : DbRow} (hl : alookup st.db k = some row) :
    ∀ e, (k, e) ∈ st.db.map expiresOf → e = row.expires := by
  intro e he
  rcases List.mem_map.mp he with ⟨kv, hkv, heq⟩
  have h1 : kv.1 = k := congrArg Prod.fst heq
  have h2 : kv.2.expires = e := congrArg Prod.snd heq
  have hmem : (k, kv.2) ∈ st.db := by
    rw [← h1]
    exact hkv
  have h3 : kv.2 = row := alookup_unique hnd hmem (mem_of_alookup hl)
  rw [← h2, h3]

theorem do_cleanup_state (cfg : Config) (st : CacheState) (curUs : Nat)
    (hwin : cfg.winPresent = true) (hexit : cfg.exitFlag = false)
    (hdb : cfg.hasDb = true) (hbusy : st.busy = false) :
    do_cleanup cfg st curUs =
      ⟨(st.db.map expiresOf).foldl clearStep st.mem,
       (st.db.map expiresOf).foldl (sweepStep (encodeTime curUs)) st.db,
       false, some curUs⟩ := by
  unfold do_cleanup
  rw [hwin, hexit, hbusy]
  simp [hdb]

/-- C9: after an uninterrupted sweep on an initialized, non-busy cache with a
DB path and no salt: every persistent entry whose `expires` is below the
sweep-time timestamp is deleted from the table and its mirrored window
property is cleared, making it unreachable by any subsequent `get`; every
entry whose `expires` is not below the timestamp keeps its exact row, and
(when stored as JSON and still unexpired) remains retrievable by `get`. -/
theorem C9_sweep (cfg : Config) (st : CacheState) (curUs : Nat)
    (hwin : cfg.winPresent = true) (hexit : cfg.exitFlag = false)
    (hdb : cfg.hasDb = true) (hsalt : cfg.globalChecksum = none)
    (hbusy : st.busy = false) (hnd : (st.db.map Prod.fst).Nodup) :
    (∀ (k : String) (row : DbRow), alookup st.db k = some row →
      row.expires < encodeTime curUs →
      alookup (do_cleanup cfg st curUs).db k = none ∧
      alookup (do_cleanup cfg st curUs).mem k = none ∧
      (∀ (cs : String) (t : Nat) (jd sqlOk : Bool),
        (get cfg (do_cleanup cfg st curUs) k cs t jd sqlOk).1 = none)) ∧
    (∀ (k : String) (row : DbRow), alookup st.db k = some row →
      ¬ row.expires < encodeTime curUs →
      alookup (do_cleanup cfg st curUs).db k = some row) ∧
    (∀ (k : String) (row : DbRow) (v : JVal), alookup st.db k = some row →
      row.expires > encodeTime curUs → row.data = DbBlob.jsonOf v →
      (get cfg (do_cleanup cfg st curUs) k "" curUs true true).1 = some v) := by
  have hst := do_cleanup_state cfg st curUs hwin hexit hdb hbusy
  have hgetnone : ∀ (s : CacheState) (k cs : String) (t : Nat) (jd sqlOk : Bool),
      alookup s.mem k = none → alookup s.db k = none →
      (get cfg s k cs t jd sqlOk).1 = none := by
    intro s k cs t jd sqlOk hm hd
    have hmemres : get_mem_cache cfg s k (get_checksum cfg.globalChecksum cs)
        (encodeTime t) jd = (none, s) := by
      unfold get_mem_cache
      rw [hm]
    have hdbres : ∀ (cks : Nat) (cur : Int),
        (get_db_cache cfg s k cks cur jd sqlOk).1 = none := by
      intro cks cur
      unfold get_db_cache
      rw [if_pos hdb]
      by_cases h2 : sqlOk = true
      · rw [if_pos h2, hd]
      · rw [if_neg h2]
    unfold get
    rw [if_pos hwin]
    dsimp only
    by_cases hm2 : cfg.enableMem = true
    · rw [if_pos hm2, hmemres]
      dsimp only
      exact hdbres _ _
    · rw [if_neg hm2]
      dsimp only
      exact hdbres _ _
  refine ⟨?_, ?_, ?_⟩
  · intro k row hl hexp
    have hkrows : (k, row.expires) ∈ st.db.map expiresOf := snapshot_expires st hl
    have hdbn : alookup (do_cleanup cfg st curUs).db k = none := by
      rw [hst]
      exact foldl_sweepStep_expired (encodeTime curUs) (st.db.map expiresOf)
        st.db k row.expires hkrows hexp
    have hmemn : alookup (do_cleanup cfg st curUs).mem k = none := by
      rw [hst]
      exact foldl_clearStep_mem (st.db.map expiresOf) st.mem k row.expires hkrows
    exact ⟨hdbn, hmemn, fun cs t jd sqlOk => hgetnone _ k cs t jd sqlOk hmemn hdbn⟩
  · intro k row hl hexp
    rw [hst]
    have hkeep : ∀ e, (k, e) ∈ st.db.map expiresOf → ¬ e < encodeTime curUs := by
      intro e he
      rw [snapshot_unique st hnd hl e he]
      exact hexp
    exact (foldl_sweepStep_keep (encodeTime curUs) (st.db.map expiresOf)
      st.db k hkeep).trans hl
  · intro k row v hl hexp hdata
    have hkrows : (k, row.expires) ∈ st.db.map expiresOf := snapshot_expires st hl
    have hmemn : alookup (do_cleanup cfg st curUs).mem k = none := by
      rw [hst]
      exact foldl_clearStep_mem (st.db.map expiresOf) st.mem k row.expires hkrows
    have hdbl : alookup (do_cleanup cfg st curUs).db k = some row := by
      rw [hst]
      have hkeep : ∀ e, (k, e) ∈ st.db.map expiresOf → ¬ e < encodeTime curUs := by
        intro e he
        rw [snapshot_unique st hnd hl e he]
        omega
      exact (foldl_sweepStep_keep (encodeTime curUs) (st.db.map expiresOf)
        st.db k hkeep).trans hl
    have hmemres : get_mem_cache cfg (do_cleanup cfg st curUs) k 0
        (encodeTime curUs) true = (none, do_cleanup cfg st curUs) := by
      unfold get_mem_cache
      rw [hmemn]
    have hdbres : (get_db_cache cfg (do_cleanup cfg st curUs) k 0
        (encodeTime curUs) true true).1 = some v := by
      unfold get_db_cache
      rw [if_pos hdb, if_pos (show (true : Bool) = true from rfl), hdbl]
      dsimp only
      rw [if_pos hexp, if_pos (Or.inl rfl : (0 : Nat) = 0 ∨ ((0 : Nat) : Int) = row.checksum),
        if_pos (show (true || cfg.dataIsJson) = true from rfl), hdata]
      dsimp only [jsonLoadsBlob]
    unfold get
    rw [if_pos hwin]
    dsimp only
    rw [hsalt]
    rw [show get_checksum (none : Option String) "" = 0 from rfl]
    by_cases hm2 : cfg.enableMem = true
    · rw [if_pos hm2, hmemres]
      dsimp only
      exact hdbres
    · rw [if_neg hm2]
      dsimp only
      exact hdbres

theorem C9_witness :
    (get cfgDefault (do_cleanup cfgDefault stSweep 5000000) "old" "" 5000000 true true).1
      = none ∧
    (get cfgDefault (do_cleanup cfgDefault stSweep 5000000) "new" "" 5000000 true true).1
      = some (JVal.num 2) := by
  have h := C9_sweep cfgDefault stSweep 5000000 rfl rfl rfl rfl rfl (by decide)
  exact ⟨(h.1 "old" ⟨0, DbBlob.jsonOf (JVal.num 1), 0⟩ rfl (by decide)).2.2 "" 5000000 true true,
    h.2.2 "new" ⟨9, DbBlob.jsonOf (JVal.num 2), 0⟩ (JVal.num 2) rfl (by decide) rfl⟩

end SimpleCache
